import Mathlib

/-!
Verification of the ZoKrates reducer module
(src/zokrates_core/src/static_analysis/reducer/mod.rs).

The development embeds the reducer's data model and operations in Lean.
Parts of the repository referenced by mod.rs but absent from the sources
(the shallow_ssa, inline and unroll submodules) are modelled from the
specification; each such definition carries a doc comment saying so.
Panicking code paths (unwrap, unreachable, assert, unimplemented) are
modelled by returning none; the unbounded driver loop is modelled with an
explicit fuel parameter, where no amount of fuel sufficing corresponds to
divergence of the source loop.
-/

namespace Reducer

/-- SSA identifier: a source name together with a version number
(typed_absy Identifier; a name with no explicit version is version 0). -/
structure Identifier where
  id : String
  version : Nat
deriving DecidableEq, Repr

/-- u32 expressions (UExpressionInner), as used for array-type lengths. -/
inductive UExpression where
  | value (n : Nat)
  | ident (x : Identifier)
  | add (l r : UExpression)
  | sub (l r : UExpression)
deriving DecidableEq, Repr

/-- Runtime types (typed_absy Type): lengths are u32 expressions. -/
inductive GType where
  | fieldElement
  | uint (width : Nat)
  | array (elem : GType) (size : UExpression)
deriving DecidableEq, Repr

/-- Declaration-type lengths (types::Constant): a literal or a generic name. -/
inductive DConstant where
  | concrete (n : Nat)
  | generic (name : String)
deriving DecidableEq, Repr

/-- Declaration types: may mention symbolic generic parameters. -/
inductive DeclarationType where
  | fieldElement
  | uint (width : Nat)
  | array (elem : DeclarationType) (size : DConstant)
deriving DecidableEq, Repr

/-- Concrete types: all lengths resolved to literals. -/
inductive ConcreteType where
  | fieldElement
  | uint (width : Nat)
  | array (elem : ConcreteType) (size : Nat)
deriving DecidableEq, Repr

/-- Typed expressions (TypedExpression), restricted to the constructors the
reducer sources exercise: field literals, typed identifier reads and u32
expressions. -/
inductive TypedExpression where
  | fieldValue (n : Nat)
  | ident (ty : GType) (x : Identifier)
  | uexp (width : Nat) (e : UExpression)
deriving DecidableEq, Repr

/-- A runtime variable: versioned identifier plus runtime type. -/
structure Variable where
  id : Identifier
  ty : GType
deriving DecidableEq, Repr

/-- A concrete variable, as appearing in call-log markers. -/
structure ConcreteVariable where
  id : Identifier
  ty : ConcreteType
deriving DecidableEq, Repr

/-- A declaration signature: input and output declaration types. -/
structure DeclarationSignature where
  inputs : List DeclarationType
  outputs : List DeclarationType
deriving DecidableEq, Repr

/-- FunctionKey: functions are identified by name and declaration signature. -/
structure DeclarationFunctionKey where
  id : String
  signature : DeclarationSignature
deriving DecidableEq, Repr

/-- Typed statements (TypedStatement), including the two call-log markers
the reducer adds.  MultipleDefinition carries its FunctionCall expression
list inline (key, arguments, types), as that is the only list variant the
reducer matches on. -/
inductive TypedStatement where
  | definition (v : Variable) (e : TypedExpression)
  | multipleDefinition (vars : List Variable) (key : DeclarationFunctionKey)
      (arguments : List TypedExpression) (types : List GType)
  | forLoop (v : Variable) (lower upper : UExpression) (body : List TypedStatement)
  | ret (es : List TypedExpression)
  | assertion (e : TypedExpression)
  | pushCallLog (caller : String) (key : DeclarationFunctionKey) (generics : List Nat)
      (bindings : List (ConcreteVariable × TypedExpression))
  | popCallLog (bindings : List (ConcreteVariable × TypedExpression))

/-- A declared function argument: plain name (version 0) and declaration type. -/
structure DeclarationVariable where
  id : String
  ty : DeclarationType
deriving DecidableEq, Repr

/-- TypedFunction: generic parameter names, arguments, body, signature. -/
structure TypedFunction where
  generics : List String
  arguments : List DeclarationVariable
  statements : List TypedStatement
  signature : DeclarationSignature

/-- TypedFunctionSymbol: local definition, cross-module reference, or
built-in (the spec calls built-ins Primitive). -/
inductive TypedFunctionSymbol where
  | here (f : TypedFunction)
  | there (key : DeclarationFunctionKey) (moduleId : String)
  | primitive (kind : Nat)

/-- A module: its function table (association list standing for the HashMap). -/
structure TypedModule where
  functions : List (DeclarationFunctionKey × TypedFunctionSymbol)

/-- The module map of a program. -/
abbrev TypedModules := List (String × TypedModule)

/-- TypedProgram: modules keyed by name plus the entry module name. -/
structure TypedProgram where
  modules : TypedModules
  main : String

/-- An SSA version map: latest version number for each identifier name. -/
abbrev Versions := List (String × Nat)

/-- The output discriminator of the shallow SSA transform (mod.rs Output). -/
inductive Output where
  | complete (f : TypedFunction)
  | incomplete (f : TypedFunction) (forLoopVersions : List Versions) (versions : Versions)

/-- The reducer error type (mod.rs lines 39-42): a single variant carrying
no payload. -/
inductive Error where
  | Generic
deriving DecidableEq, Repr

/-! ## Shallow SSA transformer

Modelled from the spec: the shallow_ssa submodule (ShallowTransformer) is
declared by mod.rs but its source file is not in the repository snapshot.
The definitions below follow spec section 4.2: version map starting with
every argument at version 0, write bumps (first write of a fresh name is
version 0, matching the expected outputs of the mod.rs tests, where the
first definition of a non-argument name keeps version 0), reads rewritten
to the current version, loops snapshotted but not entered, calls kept
opaque with only their argument reads and left-hand sides rewritten. -/

/-- Current version of a name; lookup of an unknown name yields 0. -/
def versionOf (vs : Versions) (name : String) : Nat :=
  (vs.lookup name).getD 0

/-- Store a version for a name, replacing any previous entry. -/
def setVersion (vs : Versions) (name : String) (v : Nat) : Versions :=
  (name, v) :: vs.filter (fun kv => !(kv.1 == name))

/-- Version assigned by a write: bump if the name is known, else version 0. -/
def writeVersion (vs : Versions) (name : String) : Nat × Versions :=
  match vs.lookup name with
  | some v => (v + 1, setVersion vs name (v + 1))
  | none => (0, setVersion vs name 0)

/-- Modelled from the spec: rewrite a u32 expression, substituting bound
generic parameters by their concrete values and reads by their current
version. -/
def ssaUExpr (g : List (String × Nat)) (vs : Versions) : UExpression → UExpression
  | .value n => .value n
  | .ident x =>
    match g.lookup x.id with
    | some n => .value n
    | none => .ident ⟨x.id, versionOf vs x.id⟩
  | .add l r => .add (ssaUExpr g vs l) (ssaUExpr g vs r)
  | .sub l r => .sub (ssaUExpr g vs l) (ssaUExpr g vs r)

/-- Modelled from the spec: rewrite the length expressions of a runtime type. -/
def ssaGType (g : List (String × Nat)) (vs : Versions) : GType → GType
  | .fieldElement => .fieldElement
  | .uint w => .uint w
  | .array e s => .array (ssaGType g vs e) (ssaUExpr g vs s)

/-- Modelled from the spec: rewrite the reads of a typed expression. -/
def ssaExpr (g : List (String × Nat)) (vs : Versions) : TypedExpression → TypedExpression
  | .fieldValue n => .fieldValue n
  | .ident t x => .ident (ssaGType g vs t) ⟨x.id, versionOf vs x.id⟩
  | .uexp w e => .uexp w (ssaUExpr g vs e)

/-- Modelled from the spec: a write to a variable gets a fresh version and
its type length reads are rewritten against the pre-write map. -/
def ssaWriteVariable (g : List (String × Nat)) (vs : Versions) (v : Variable) :
    Variable × Versions :=
  let t := ssaGType g vs v.ty
  let r := writeVersion vs v.id.id
  (⟨⟨v.id.id, r.1⟩, t⟩, r.2)

/-- Modelled from the spec: sequential fresh-versioning of several
left-hand sides. -/
def ssaWriteVariables (g : List (String × Nat)) :
    Versions → List Variable → List Variable × Versions
  | vs, [] => ([], vs)
  | vs, v :: rest =>
    let r := ssaWriteVariable g vs v
    let rr := ssaWriteVariables g r.2 rest
    (r.1 :: rr.1, rr.2)

/-- Modelled from the spec: the destinations of a PopCallLog are caller
writes and get fresh versions; the callee return expressions live in the
callee namespace and are left untouched. -/
def ssaPopBindings :
    Versions → List (ConcreteVariable × TypedExpression) →
      List (ConcreteVariable × TypedExpression) × Versions
  | vs, [] => ([], vs)
  | vs, (cv, e) :: rest =>
    let r := writeVersion vs cv.id.id
    let rr := ssaPopBindings r.2 rest
    ((⟨⟨cv.id.id, r.1⟩, cv.ty⟩, e) :: rr.1, rr.2)

/-- Modelled from the spec: shallow SSA of one statement.  Returns the
rewritten statement, the updated version map and the updated list of
per-loop snapshots.  Loops are not entered; their bodies are preserved and
the current map is snapshotted.  Call statements stay calls: only their
argument reads, type lengths and left-hand sides are rewritten. -/
def ssaStatement (g : List (String × Nat)) (vs : Versions) (flv : List Versions) :
    TypedStatement → TypedStatement × Versions × List Versions
  | .definition v e =>
    let e2 := ssaExpr g vs e
    let r := ssaWriteVariable g vs v
    (.definition r.1 e2, r.2, flv)
  | .multipleDefinition vars key args tys =>
    let args2 := args.map (ssaExpr g vs)
    let tys2 := tys.map (ssaGType g vs)
    let r := ssaWriteVariables g vs vars
    (.multipleDefinition r.1 key args2 tys2, r.2, flv)
  | .forLoop v lo hi body =>
    (.forLoop v (ssaUExpr g vs lo) (ssaUExpr g vs hi) body, vs, flv ++ [vs])
  | .ret es => (.ret (es.map (ssaExpr g vs)), vs, flv)
  | .assertion e => (.assertion (ssaExpr g vs e), vs, flv)
  | .pushCallLog c k gs bs =>
    (.pushCallLog c k gs (bs.map (fun b => (b.1, ssaExpr g vs b.2))), vs, flv)
  | .popCallLog bs =>
    let r := ssaPopBindings vs bs
    (.popCallLog r.1, r.2, flv)

/-- Modelled from the spec: shallow SSA of a statement sequence, threading
the version map and loop snapshots in order. -/
def ssaStatements (g : List (String × Nat)) :
    Versions → List Versions → List TypedStatement →
      List TypedStatement × Versions × List Versions
  | vs, flv, [] => ([], vs, flv)
  | vs, flv, s :: rest =>
    let r := ssaStatement g vs flv s
    let rr := ssaStatements g r.2.1 r.2.2 rest
    (r.1 :: rr.1, rr.2)

/-- A statement that still needs driver treatment: a call multi-definition
or a for-loop. -/
def isActionable : TypedStatement → Bool
  | .multipleDefinition .. => true
  | .forLoop .. => true
  | _ => false

/-- Modelled from the spec: ShallowTransformer::transform.  Binds the
generic parameters to the supplied values, initializes every argument at
version 0, rewrites the body, and classifies the result as Complete when
it contains no call and no loop, else Incomplete with the loop snapshots
and the final version map. -/
def transform (f : TypedFunction) (generics : List Nat) : Output :=
  let g := f.generics.zip generics
  let vs0 : Versions := f.arguments.map (fun a => (a.id, 0))
  let r := ssaStatements g vs0 [] f.statements
  let f2 : TypedFunction := { f with statements := r.1 }
  if r.1.any isActionable then Output.incomplete f2 r.2.2 r.2.1 else Output.complete f2

/-! ## Symbol resolution and the inliner

Modelled from the spec: the inline submodule (inline_call) is declared by
mod.rs but its source file is not in the repository snapshot.  The
definitions follow spec section 4.3.  One deviation, forced by the call
shape in mod.rs reduce_statement: mod.rs drops the types component of the
FunctionCall before calling inline_call, yet the Err case of inline_call
must hand the original statement back for the next driver iteration, so
the model passes the types through to rebuild that statement. -/

/-- Look a key up, in a given module or (absent a module name) in the
first module that has it. -/
def lookupSymbolIn (modules : TypedModules) (mid : Option String)
    (key : DeclarationFunctionKey) : Option TypedFunctionSymbol :=
  match mid with
  | some m => (modules.lookup m).bind (fun md => md.functions.lookup key)
  | none => (modules.filterMap (fun m => m.2.functions.lookup key)).head?

/-- Modelled from the spec: resolve a key to a local function or a
primitive, following There references; the fuel bounds reference chains. -/
def resolve : Nat → TypedModules → Option String → DeclarationFunctionKey →
    Option (Sum TypedFunction Nat)
  | 0, _, _, _ => none
  | n + 1, modules, mid, key =>
    match lookupSymbolIn modules mid key with
    | some (.here f) => some (Sum.inl f)
    | some (.primitive k) => some (Sum.inr k)
    | some (.there key2 m2) => resolve n modules (some m2) key2
    | none => none

/-- Outcome of matching declaration types against actual argument types:
a generic binding, a not-yet-constant length, or a shape mismatch. -/
inductive BindOutcome where
  | bound (m : List (String × Nat))
  | notYet
  | mismatch

/-- Record a generic binding, rejecting conflicting values. -/
def addBinding (m : List (String × Nat)) (k : String) (n : Nat) :
    Option (List (String × Nat)) :=
  match m.lookup k with
  | some n2 => if n2 = n then some m else none
  | none => some ((k, n) :: m)

/-- The (annotated) type of an expression. -/
def inferType : TypedExpression → GType
  | .fieldValue _ => .fieldElement
  | .ident t _ => t
  | .uexp w _ => .uint w

/-- Modelled from the spec: match one declaration type against one actual
type, binding generic lengths to constant actual lengths.  A length that
is not yet a literal gives notYet; anything structurally off gives
mismatch. -/
def matchType (m : List (String × Nat)) : DeclarationType → GType → BindOutcome
  | .fieldElement, .fieldElement => .bound m
  | .uint w, .uint w2 => if w = w2 then .bound m else .mismatch
  | .array d (.concrete c), .array g (.value n) =>
    if c = n then matchType m d g else .mismatch
  | .array d (.generic k), .array g (.value n) =>
    (match addBinding m k n with
     | some m2 => matchType m2 d g
     | none => .mismatch)
  | .array _ _, .array _ _ => .notYet
  | _, _ => .mismatch

/-- Match a list of declaration types against actual types in order. -/
def matchTypes (m : List (String × Nat)) :
    List DeclarationType → List GType → BindOutcome
  | [], [] => .bound m
  | d :: ds, t :: ts =>
    (match matchType m d t with
     | .bound m2 => matchTypes m2 ds ts
     | .notYet => .notYet
     | .mismatch => .mismatch)
  | _, _ => .mismatch

/-- Substitute bound generics into a declaration type, yielding a concrete
type; fails on an unbound generic. -/
def monomorphizeType (m : List (String × Nat)) : DeclarationType → Option ConcreteType
  | .fieldElement => some .fieldElement
  | .uint w => some (.uint w)
  | .array d (.concrete c) => (monomorphizeType m d).map (fun e => .array e c)
  | .array d (.generic k) =>
    match m.lookup k with
    | some n => (monomorphizeType m d).map (fun e => .array e n)
    | none => none

/-- A runtime type whose lengths are all literals, as a concrete type. -/
def concretizeGType : GType → Option ConcreteType
  | .fieldElement => some .fieldElement
  | .uint w => some (.uint w)
  | .array e (.value n) => (concretizeGType e).map (fun c => .array c n)
  | .array _ _ => none

/-- A variable with a fully constant type, as a concrete variable. -/
def concretizeVar (v : Variable) : Option ConcreteVariable :=
  (concretizeGType v.ty).map (fun t => ⟨v.id, t⟩)

/-- Split a reduced callee body into its statements and the expressions of
its trailing return, which feed the PopCallLog bindings. -/
def splitReturn (stmts : List TypedStatement) :
    List TypedStatement × List TypedExpression :=
  match stmts.getLast? with
  | some (.ret es) => (stmts.dropLast, es)
  | _ => (stmts, [])

/-- Modelled from the spec: inline_call.  Resolves the callee; a primitive
call survives unchanged; a Here callee has its generics bound from the
actual argument types, is recursively reduced through the supplied driver,
and is spliced between a PushCallLog and a PopCallLog.  Unresolvable
symbols and shape mismatches are fatal (none, the source panics there);
lengths that are not yet constant give back the original statement for the
next driver iteration (the Except.error case, mirroring the Rust Err). -/
def inline_call (reduceFn : List Nat → TypedFunction → Option TypedFunction)
    (v : List Variable) (caller : String) (key : DeclarationFunctionKey)
    (arguments : List TypedExpression) (types : List GType)
    (modules : TypedModules) :
    Option (Except (List TypedStatement) (List TypedStatement)) :=
  let original := [TypedStatement.multipleDefinition v key arguments types]
  match resolve (modules.length + 1) modules none key with
  | none => none
  | some (Sum.inr _) => some (Except.ok original)
  | some (Sum.inl callee) =>
    match matchTypes [] key.signature.inputs (arguments.map inferType) with
    | .mismatch => none
    | .notYet => some (Except.error original)
    | .bound m =>
      match callee.generics.mapM (fun k => m.lookup k) with
      | none => some (Except.error original)
      | some gvals =>
        match v.mapM concretizeVar,
          callee.arguments.mapM (fun a =>
            (monomorphizeType m a.ty).map
              (fun t => (⟨⟨a.id, 0⟩, t⟩ : ConcreteVariable))) with
        | some dests, some params =>
          (match reduceFn gvals callee with
           | none => none
           | some reduced =>
             let r := splitReturn reduced.statements
             some (Except.ok
               (TypedStatement.pushCallLog caller key gvals (params.zip arguments) ::
                 (r.1 ++ [TypedStatement.popCallLog (dests.zip r.2)]))))
        | _, _ => some (Except.error original)

/-! ## The driver (mod.rs lines 93-193)

These definitions are translated from mod.rs itself.  reduce_statement
matches the source exactly: the two version parameters are bound to
underscores in the source and hence returned unchanged here, the For case
is the source unimplemented panic (none), and everything that is not a
call or a loop passes through unchanged.  The unbounded Rust loop inside
fold_function becomes the fuel recursion driverLoop. -/

/-- mod.rs reduce_statement (lines 175-189).  The version state is ignored
by the source (its parameters are underscores) and returned unchanged;
For is unimplemented (a panic, modelled as none). -/
def reduce_statement (reduceFn : List Nat → TypedFunction → Option TypedFunction)
    (s : TypedStatement) (forLoopVersions : List Versions) (versions : Versions)
    (modules : TypedModules) :
    Option (Except (List TypedStatement) (List TypedStatement)) ×
      List Versions × Versions :=
  match s with
  | .multipleDefinition v key args tys =>
    (inline_call reduceFn v "main" key args tys modules, forLoopVersions, versions)
  | .forLoop .. => (none, forLoopVersions, versions)
  | s => (some (Except.ok [s]), forLoopVersions, versions)

/-- The sequential core of reduce_statements: thread the state through
each statement, concatenate every output in order, and remember whether
any statement asked for another iteration. -/
def reduce_statements_go (reduceFn : List Nat → TypedFunction → Option TypedFunction)
    (modules : TypedModules) :
    List TypedStatement → List Versions → Versions → List TypedStatement → Bool →
      Option (List TypedStatement × Bool × List Versions × Versions)
  | [], flv, vs, acc, isErr => some (acc, isErr, flv, vs)
  | s :: rest, flv, vs, acc, isErr =>
    match reduce_statement reduceFn s flv vs modules with
    | (none, _, _) => none
    | (some (Except.ok l), flv2, vs2) =>
      reduce_statements_go reduceFn modules rest flv2 vs2 (acc ++ l) isErr
    | (some (Except.error l), flv2, vs2) =>
      reduce_statements_go reduceFn modules rest flv2 vs2 (acc ++ l) true

/-- mod.rs reduce_statements (lines 132-173): fold every statement's
output together in order; the result is Err exactly when some statement
was Err, carrying the concatenated statements and the final state. -/
def reduce_statements (reduceFn : List Nat → TypedFunction → Option TypedFunction)
    (stmts : List TypedStatement) (flv : List Versions) (vs : Versions)
    (modules : TypedModules) :
    Option (Except (List TypedStatement × List Versions × Versions)
      (List TypedStatement)) :=
  match reduce_statements_go reduceFn modules stmts flv vs [] false with
  | none => none
  | some (l, true, flv2, vs2) => some (Except.error (l, flv2, vs2))
  | some (l, false, _, _) => some (Except.ok l)

/-- mod.rs propagate (lines 191-193): the identity. -/
def propagate (f : TypedFunction) : TypedFunction := f

/-- The Rust loop inside fold_function (lines 103-124), with fuel: stop on
Ok, else propagate and iterate. -/
def driverLoop (reduceFn : List Nat → TypedFunction → Option TypedFunction) :
    Nat → TypedFunction → List Versions → Versions → TypedModules →
      Option TypedFunction
  | 0, _, _, _, _ => none
  | n + 1, f, flv, vs, modules =>
    match reduce_statements reduceFn f.statements flv vs modules with
    | none => none
    | some (Except.ok stmts) => some { f with statements := stmts }
    | some (Except.error (stmts, flv2, vs2)) =>
      driverLoop reduceFn n (propagate { f with statements := stmts }) flv2 vs2 modules

/-- mod.rs fold_function (lines 94-129): shallow SSA, then the driver loop
on an Incomplete result.  Recursive reduction of callees goes through the
same function at smaller fuel. -/
def fold_function : Nat → TypedModules → List Nat → TypedFunction →
    Option TypedFunction
  | 0, _, _, _ => none
  | n + 1, modules, generics, f =>
    match transform f generics with
    | Output.complete fc => some fc
    | Output.incomplete fi flv vs =>
      driverLoop (fold_function n modules) n fi flv vs modules

/-- mod.rs reduce_program (lines 50-91).  The unwraps, the unreachable arm
and the generics assertion are panics (none).  The reducer error field is
never written by any code in the source, so a terminating run always
produces Ok: a program with the single entry module containing the single
main function under its original key. -/
def reduce_program (fuel : Nat) (p : TypedProgram) :
    Option (Except Error TypedProgram) :=
  match p.modules.lookup p.main with
  | none => none
  | some mainModule =>
    match mainModule.functions.find? (fun kv => kv.1.id == "main") with
    | none => none
    | some (mainKey, TypedFunctionSymbol.here mainFunction) =>
      if mainFunction.generics.length = 0 then
        match fold_function fuel p.modules [] mainFunction with
        | none => none
        | some f =>
          some (Except.ok
            { main := p.main,
              modules := [(p.main, ⟨[(mainKey, TypedFunctionSymbol.here f)]⟩)] })
      else none
    | some _ => none

/-! ## Concrete programs

The first program is the one of the mod.rs no_generics test: foo is the
identity on a field element, and main assigns, calls foo once, and
returns. -/

/-- The field-to-field signature used by the mod.rs tests. -/
def sigT1 : DeclarationSignature := ⟨[.fieldElement], [.fieldElement]⟩

/-- Key of foo in the no_generics test. -/
def fooKeyT1 : DeclarationFunctionKey := ⟨"foo", sigT1⟩

/-- Key of main in the no_generics test. -/
def mainKeyT1 : DeclarationFunctionKey := ⟨"main", sigT1⟩

/-- foo from the no_generics test: return its field argument. -/
def fooT1 : TypedFunction :=
  ⟨[], [⟨"a", .fieldElement⟩], [.ret [.ident .fieldElement ⟨"a", 0⟩]], sigT1⟩

/-- main from the no_generics test. -/
def mainT1 : TypedFunction :=
  ⟨[], [⟨"a", .fieldElement⟩],
   [.definition ⟨⟨"n", 0⟩, .uint 32⟩ (.uexp 32 (.value 42)),
    .definition ⟨⟨"n", 0⟩, .uint 32⟩ (.uexp 32 (.ident ⟨"n", 0⟩)),
    .definition ⟨⟨"a", 0⟩, .fieldElement⟩ (.ident .fieldElement ⟨"a", 0⟩),
    .multipleDefinition [⟨⟨"a", 0⟩, .fieldElement⟩] fooKeyT1
      [.ident .fieldElement ⟨"a", 0⟩] [.fieldElement],
    .definition ⟨⟨"n", 0⟩, .uint 32⟩ (.uexp 32 (.ident ⟨"n", 0⟩)),
    .ret [.ident .fieldElement ⟨"a", 0⟩]], sigT1⟩

/-- The module map of the no_generics test. -/
def modulesT1 : TypedModules :=
  [("main", ⟨[(fooKeyT1, .here fooT1), (mainKeyT1, .here mainT1)]⟩)]

/-- The program of the no_generics test. -/
def progT1 : TypedProgram := ⟨modulesT1, "main"⟩

/-- The reduced main the no_generics test expects. -/
def mainT1out : TypedFunction :=
  ⟨[], [⟨"a", .fieldElement⟩],
   [.definition ⟨⟨"n", 0⟩, .uint 32⟩ (.uexp 32 (.value 42)),
    .definition ⟨⟨"n", 1⟩, .uint 32⟩ (.uexp 32 (.ident ⟨"n", 0⟩)),
    .definition ⟨⟨"a", 1⟩, .fieldElement⟩ (.ident .fieldElement ⟨"a", 0⟩),
    .pushCallLog "main" fooKeyT1 []
      [(⟨⟨"a", 0⟩, .fieldElement⟩, .ident .fieldElement ⟨"a", 1⟩)],
    .popCallLog [(⟨⟨"a", 2⟩, .fieldElement⟩, .ident .fieldElement ⟨"a", 0⟩)],
    .definition ⟨⟨"n", 2⟩, .uint 32⟩ (.uexp 32 (.ident ⟨"n", 1⟩)),
    .ret [.ident .fieldElement ⟨"a", 2⟩]], sigT1⟩

/-- The reduced program the no_generics test expects. -/
def progT1out : TypedProgram :=
  ⟨[("main", ⟨[(mainKeyT1, .here mainT1out)]⟩)], "main"⟩

/-- The shallow-SSA form of the no_generics main, the statement list the
driver iterates on. -/
def mainT1ssa : List TypedStatement :=
  [.definition ⟨⟨"n", 0⟩, .uint 32⟩ (.uexp 32 (.value 42)),
   .definition ⟨⟨"n", 1⟩, .uint 32⟩ (.uexp 32 (.ident ⟨"n", 0⟩)),
   .definition ⟨⟨"a", 1⟩, .fieldElement⟩ (.ident .fieldElement ⟨"a", 0⟩),
   .multipleDefinition [⟨⟨"a", 2⟩, .fieldElement⟩] fooKeyT1
     [.ident .fieldElement ⟨"a", 1⟩] [.fieldElement],
   .definition ⟨⟨"n", 2⟩, .uint 32⟩ (.uexp 32 (.ident ⟨"n", 1⟩)),
   .ret [.ident .fieldElement ⟨"a", 2⟩]]

/-! ## Predicates and projections used by the claims -/

/-- A statement in Complete form: not a loop, and a call only when the key
resolves to a primitive (primitive calls survive reduction). -/
def isCompleteStmt (modules : TypedModules) : TypedStatement → Bool
  | .forLoop .. => false
  | .multipleDefinition _ key _ _ =>
    (match resolve (modules.length + 1) modules none key with
     | some (Sum.inr _) => true
     | _ => false)
  | _ => true

/-- A body in Complete form: no loops, no non-primitive calls. -/
def isCompleteBody (modules : TypedModules) (stmts : List TypedStatement) : Bool :=
  stmts.all (isCompleteStmt modules)

/-- The function carried by either Output constructor. -/
def Output.fn : Output → TypedFunction
  | .complete f => f
  | .incomplete f _ _ => f

/-- The statement list carried by either side of a reduce_statements
result. -/
def payloadOf :
    Except (List TypedStatement × List Versions × Versions) (List TypedStatement) →
      List TypedStatement
  | Except.ok l => l
  | Except.error t => t.1

/-- The statements one statement reduces to in one driver iteration (empty
for the panicking For case). -/
def stmtOut (reduceFn : List Nat → TypedFunction → Option TypedFunction)
    (modules : TypedModules) (flv : List Versions) (vs : Versions)
    (s : TypedStatement) : List TypedStatement :=
  match (reduce_statement reduceFn s flv vs modules).1 with
  | some (Except.ok l) => l
  | some (Except.error l) => l
  | none => []

/-- The four entry conditions under which reduce_program panics before the
driver even starts: entry module absent, no function whose key id is main,
a main symbol that is not a local Here definition, or a main that declares
generic parameters. -/
def badEntry (p : TypedProgram) : Bool :=
  match p.modules.lookup p.main with
  | none => true
  | some mm =>
    match mm.functions.find? (fun kv => kv.1.id == "main") with
    | none => true
    | some (_, TypedFunctionSymbol.here f) => !(f.generics.length == 0)
    | some _ => true

/-- Version number of the left-hand side of the second statement of the
single function of a single-module program (0 when the program has another
shape); it distinguishes a body from its SSA renaming. -/
def secondWriteVersion (p : TypedProgram) : Nat :=
  match p.modules with
  | [(_, mm)] =>
    (match mm.functions with
     | [(_, TypedFunctionSymbol.here f)] =>
       (match f.statements with
        | _ :: TypedStatement.definition v _ :: _ => v.id.version
        | _ => 0)
     | _ => 0)
  | _ => 0

/-! ## Concrete programs for the remaining claims -/

/-- Key of the generic foo of the non-progress program: one generic
parameter K, field array in and out. -/
def fooKeyC2 : DeclarationFunctionKey :=
  ⟨"foo", ⟨[.array .fieldElement (.generic "K")], [.array .fieldElement (.generic "K")]⟩⟩

/-- The generic foo of the non-progress program. -/
def fooC2 : TypedFunction :=
  ⟨["K"], [⟨"a", .array .fieldElement (.generic "K")⟩],
   [.ret [.ident (.array .fieldElement (.value 1)) ⟨"a", 0⟩]], fooKeyC2.signature⟩

/-- Key of the main of the non-progress program. -/
def mainKeyC2 : DeclarationFunctionKey := ⟨"main", sigT1⟩

/-- A main whose single call passes an array whose length is the never
assigned, hence never constant, variable n: foo's generic K can never be
bound, so no driver iteration can rewrite anything. -/
def mainC2 : TypedFunction :=
  ⟨[], [⟨"a", .fieldElement⟩],
   [.multipleDefinition [⟨⟨"b", 0⟩, .array .fieldElement (.ident ⟨"n", 0⟩)⟩] fooKeyC2
      [.ident (.array .fieldElement (.ident ⟨"n", 0⟩)) ⟨"b", 0⟩]
      [.array .fieldElement (.ident ⟨"n", 0⟩)],
    .ret []], sigT1⟩

/-- The module map of the non-progress program. -/
def modulesC2 : TypedModules :=
  [("main", ⟨[(fooKeyC2, .here fooC2), (mainKeyC2, .here mainC2)]⟩)]

/-- The non-progress program. -/
def progC2 : TypedProgram := ⟨modulesC2, "main"⟩

/-- The version map the shallow SSA pass produces for mainC2. -/
def vsC2 : Versions := [("b", 0), ("a", 0)]

/-- The shallow-SSA body of the with_generics_and_propagation scenario:
n is 2, and b is declared with the still symbolic length n - 1 that the
propagator is expected to fold to 1. -/
def mainC4 : TypedFunction :=
  ⟨[], [⟨"a", .fieldElement⟩],
   [.definition ⟨⟨"n", 0⟩, .uint 32⟩ (.uexp 32 (.value 2)),
    .definition ⟨⟨"n", 1⟩, .uint 32⟩ (.uexp 32 (.ident ⟨"n", 0⟩)),
    .definition ⟨⟨"b", 0⟩, .array .fieldElement (.sub (.ident ⟨"n", 1⟩) (.value 1))⟩
      (.fieldValue 42),
    .ret []], sigT1⟩

/-- Key of the trivially complete main used as a success input. -/
def mainKeyC5 : DeclarationFunctionKey := ⟨"main", ⟨[.fieldElement], []⟩⟩

/-- A trivially complete main: one field argument, an empty return. -/
def mainC5 : TypedFunction :=
  ⟨[], [⟨"a", .fieldElement⟩], [.ret []], ⟨[.fieldElement], []⟩⟩

/-- A well-formed program on which reduction succeeds at once. -/
def progC5 : TypedProgram := ⟨[("main", ⟨[(mainKeyC5, .here mainC5)]⟩)], "main"⟩

/-- Key of the fixed-point main of the idempotence witness. -/
def mainKeyC7 : DeclarationFunctionKey := ⟨"main", ⟨[], []⟩⟩

/-- A Complete main that is moreover a fixed point of shallow SSA. -/
def mainC7 : TypedFunction := ⟨[], [⟨"x", .fieldElement⟩], [.ret []], ⟨[], []⟩⟩

/-- A single-module program whose main is Complete and SSA-fixed. -/
def progC7 : TypedProgram := ⟨[("main", ⟨[(mainKeyC7, .here mainC7)]⟩)], "main"⟩

/-- Key of the main of the idempotence counterexample. -/
def keyC7cx : DeclarationFunctionKey := ⟨"main", ⟨[.fieldElement], []⟩⟩

/-- A main that is Complete (no calls, no loops) but writes n twice, so
shallow SSA renames its second write. -/
def mainC7cx : TypedFunction :=
  ⟨[], [⟨"a", .fieldElement⟩],
   [.definition ⟨⟨"n", 0⟩, .uint 32⟩ (.uexp 32 (.value 42)),
    .definition ⟨⟨"n", 0⟩, .uint 32⟩ (.uexp 32 (.ident ⟨"n", 0⟩)),
    .ret []], ⟨[.fieldElement], []⟩⟩

/-- The Complete but not SSA-fixed input program. -/
def progC7cx : TypedProgram := ⟨[("main", ⟨[(keyC7cx, .here mainC7cx)]⟩)], "main"⟩

/-- What reducing progC7cx actually yields: the second write renamed to
version 1. -/
def mainC7out : TypedFunction :=
  ⟨[], [⟨"a", .fieldElement⟩],
   [.definition ⟨⟨"n", 0⟩, .uint 32⟩ (.uexp 32 (.value 42)),
    .definition ⟨⟨"n", 1⟩, .uint 32⟩ (.uexp 32 (.ident ⟨"n", 0⟩)),
    .ret []], ⟨[.fieldElement], []⟩⟩

/-- The output program of the idempotence counterexample. -/
def progC7out : TypedProgram := ⟨[("main", ⟨[(keyC7cx, .here mainC7out)]⟩)], "main"⟩

/-- Key of the generic main used to witness the generics assertion panic. -/
def mainKeyC10 : DeclarationFunctionKey := ⟨"main", ⟨[], []⟩⟩

/-- A main that declares a generic parameter, tripping the assertion. -/
def mainC10 : TypedFunction := ⟨["K"], [], [.ret []], ⟨[], []⟩⟩

/-- A program whose main declares a generic parameter. -/
def progC10 : TypedProgram := ⟨[("main", ⟨[(mainKeyC10, .here mainC10)]⟩)], "main"⟩

/-! ## Helper lemmas -/

/-- reduce_statement returns its two version parameters unchanged: the
source binds them to underscores. -/
theorem reduce_statement_state (rf : List Nat → TypedFunction → Option TypedFunction)
    (s : TypedStatement) (flv : List Versions) (vs : Versions) (mods : TypedModules) :
    (reduce_statement rf s flv vs mods).2 = (flv, vs) := by
  cases s <;> rfl

/-- The sequential core returns the accumulator followed by each
statement's output, in statement order. -/
theorem reduce_statements_go_append (rf : List Nat → TypedFunction → Option TypedFunction)
    (mods : TypedModules) :
    ∀ (rest : List TypedStatement) (flv : List Versions) (vs : Versions)
      (acc l : List TypedStatement) (e e2 : Bool) (flv2 : List Versions) (vs2 : Versions),
      reduce_statements_go rf mods rest flv vs acc e = some (l, e2, flv2, vs2) →
      l = acc ++ rest.flatMap (stmtOut rf mods flv vs)
  | [], flv, vs, acc, l, e, e2, flv2, vs2 => by
    intro h
    simp only [reduce_statements_go, Option.some.injEq, Prod.mk.injEq] at h
    simp [← h.1]
  | s :: rest, flv, vs, acc, l, e, e2, flv2, vs2 => by
    intro h
    have hst := reduce_statement_state rf s flv vs mods
    rcases hr : reduce_statement rf s flv vs mods with ⟨res, st⟩
    rw [hr] at hst
    simp only at hst
    subst hst
    simp only [reduce_statements_go, hr] at h
    rcases res with _ | r
    · exact absurd h (by simp)
    · rcases r with lo | lo
      · have ih := reduce_statements_go_append rf mods rest flv vs (acc ++ lo) l true e2 flv2 vs2 h
        rw [ih]
        simp [stmtOut, hr]
      · have ih := reduce_statements_go_append rf mods rest flv vs (acc ++ lo) l e e2 flv2 vs2 h
        rw [ih]
        simp [stmtOut, hr]

/-- Once some statement asked for another iteration, the flag stays set. -/
theorem reduce_statements_go_true (rf : List Nat → TypedFunction → Option TypedFunction)
    (mods : TypedModules) :
    ∀ (rest : List TypedStatement) (flv : List Versions) (vs : Versions)
      (acc l : List TypedStatement) (e2 : Bool) (flv2 : List Versions) (vs2 : Versions),
      reduce_statements_go rf mods rest flv vs acc true = some (l, e2, flv2, vs2) →
      e2 = true
  | [], flv, vs, acc, l, e2, flv2, vs2 => by
    intro h
    simp only [reduce_statements_go, Option.some.injEq, Prod.mk.injEq] at h
    exact h.2.1.symm
  | s :: rest, flv, vs, acc, l, e2, flv2, vs2 => by
    intro h
    simp only [reduce_statements_go] at h
    rcases hr : reduce_statement rf s flv vs mods with ⟨res, st⟩
    rw [hr] at h
    rcases res with _ | r
    · exact absurd h (by simp)
    · rcases r with lo | lo
      · exact reduce_statements_go_true rf mods rest st.1 st.2 (acc ++ lo) l e2 flv2 vs2 h
      · exact reduce_statements_go_true rf mods rest st.1 st.2 (acc ++ lo) l e2 flv2 vs2 h

/-- Dropping the trailing return of a Complete body keeps it Complete. -/
theorem splitReturn_complete (mods : TypedModules) (sts : List TypedStatement)
    (h : isCompleteBody mods sts = true) :
    isCompleteBody mods (splitReturn sts).1 = true := by
  unfold splitReturn
  rcases hl : sts.getLast? with _ | s
  · exact h
  · cases s <;> try exact h
    case ret es =>
    exact List.all_eq_true.mpr fun x hx =>
      List.all_eq_true.mp h x ((List.dropLast_sublist sts).subset hx)

/-- An Ok result of the modelled inline_call is in Complete form: primitive
calls survive as calls to primitives, and a Here callee contributes its
recursively reduced body between the two markers. -/
theorem inline_call_ok_complete (rf : List Nat → TypedFunction → Option TypedFunction)
    (mods : TypedModules)
    (hrf : ∀ gv f g, rf gv f = some g → isCompleteBody mods g.statements = true)
    (v : List Variable) (c : String) (key : DeclarationFunctionKey)
    (args : List TypedExpression) (tys : List GType) (l : List TypedStatement)
    (h : inline_call rf v c key args tys mods = some (Except.ok l)) :
    isCompleteBody mods l = true := by
  simp only [inline_call] at h
  split at h
  · exact absurd h (by simp)
  · rename_i k hres
    simp only [Option.some.injEq, Except.ok.injEq] at h
    subst h
    simp [isCompleteBody, isCompleteStmt, hres]
  · rename_i callee hres
    split at h
    · exact absurd h (by simp)
    · exact absurd h (by simp)
    · rename_i m hmt
      split at h
      · exact absurd h (by simp)
      · rename_i gvals hgv
        split at h
        · rename_i dests params hdp
          split at h
          · exact absurd h (by simp)
          · rename_i reduced hred
            simp only [Option.some.injEq, Except.ok.injEq] at h
            subst h
            have hbody := splitReturn_complete mods reduced.statements
              (hrf gvals callee reduced hred)
            simp [isCompleteBody, isCompleteStmt, List.all_append] at hbody ⊢
            exact hbody
        · exact absurd h (by simp)

/-- An Ok result of reduce_statement is in Complete form. -/
theorem reduce_statement_ok_complete (rf : List Nat → TypedFunction → Option TypedFunction)
    (mods : TypedModules)
    (hrf : ∀ gv f g, rf gv f = some g → isCompleteBody mods g.statements = true)
    (s : TypedStatement) (flv : List Versions) (vs : Versions) (l : List TypedStatement)
    (h : (reduce_statement rf s flv vs mods).1 = some (Except.ok l)) :
    isCompleteBody mods l = true := by
  cases s with
  | multipleDefinition v key args tys =>
    exact inline_call_ok_complete rf mods hrf v "main" key args tys l h
  | forLoop v lo hi body => exact absurd h (by simp [reduce_statement])
  | definition v e =>
    simp only [reduce_statement, Option.some.injEq, Except.ok.injEq] at h
    simp [← h, isCompleteBody, isCompleteStmt]
  | ret es =>
    simp only [reduce_statement, Option.some.injEq, Except.ok.injEq] at h
    simp [← h, isCompleteBody, isCompleteStmt]
  | assertion e =>
    simp only [reduce_statement, Option.some.injEq, Except.ok.injEq] at h
    simp [← h, isCompleteBody, isCompleteStmt]
  | pushCallLog c2 k gs bs =>
    simp only [reduce_statement, Option.some.injEq, Except.ok.injEq] at h
    simp [← h, isCompleteBody, isCompleteStmt]
  | popCallLog bs =>
    simp only [reduce_statement, Option.some.injEq, Except.ok.injEq] at h
    simp [← h, isCompleteBody, isCompleteStmt]

/-- A run of the sequential core that never raised the iterate flag emits
a Complete concatenation. -/
theorem reduce_statements_go_ok_complete
    (rf : List Nat → TypedFunction → Option TypedFunction) (mods : TypedModules)
    (hrf : ∀ gv f g, rf gv f = some g → isCompleteBody mods g.statements = true) :
    ∀ (rest : List TypedStatement) (flv : List Versions) (vs : Versions)
      (acc l : List TypedStatement) (flv2 : List Versions) (vs2 : Versions),
      isCompleteBody mods acc = true →
      reduce_statements_go rf mods rest flv vs acc false = some (l, false, flv2, vs2) →
      isCompleteBody mods l = true
  | [], flv, vs, acc, l, flv2, vs2 => by
    intro hacc h
    simp only [reduce_statements_go, Option.some.injEq, Prod.mk.injEq] at h
    rw [← h.1]
    exact hacc
  | s :: rest, flv, vs, acc, l, flv2, vs2 => by
    intro hacc h
    simp only [reduce_statements_go] at h
    rcases hr : reduce_statement rf s flv vs mods with ⟨res, st⟩
    rw [hr] at h
    rcases res with _ | r
    · exact absurd h (by simp)
    · rcases r with lo | lo
      · exact absurd (reduce_statements_go_true rf mods rest st.1 st.2
          (acc ++ lo) l false flv2 vs2 h) (by simp)
      · have hlo : isCompleteBody mods lo = true :=
          reduce_statement_ok_complete rf mods hrf s flv vs lo (by rw [hr])
        have hacc2 : isCompleteBody mods (acc ++ lo) = true := by
          simp [isCompleteBody, List.all_append] at hacc hlo ⊢
          exact ⟨hacc, hlo⟩
        exact reduce_statements_go_ok_complete rf mods hrf rest st.1 st.2
          (acc ++ lo) l flv2 vs2 hacc2 h

/-- A terminating driver loop run yields a Complete body. -/
theorem driverLoop_complete (rf : List Nat → TypedFunction → Option TypedFunction)
    (mods : TypedModules)
    (hrf : ∀ gv f g, rf gv f = some g → isCompleteBody mods g.statements = true) :
    ∀ (n : Nat) (f : TypedFunction) (flv : List Versions) (vs : Versions)
      (g : TypedFunction),
      driverLoop rf n f flv vs mods = some g →
      isCompleteBody mods g.statements = true
  | 0, f, flv, vs, g => fun h => absurd h (by simp [driverLoop])
  | n + 1, f, flv, vs, g => by
    intro h
    simp only [driverLoop] at h
    rcases hrs : reduce_statements rf f.statements flv vs mods with _ | r
    · rw [hrs] at h; exact absurd h (by simp)
    · rw [hrs] at h
      rcases r with ⟨stmts, flv2, vs2⟩ | stmts
      · exact driverLoop_complete rf mods hrf n _ flv2 vs2 g h
      · simp only [Option.some.injEq] at h
        subst h
        unfold reduce_statements at hrs
        rcases hgo : reduce_statements_go rf mods f.statements flv vs [] false
          with _ | ⟨lg, eg, flvg, vsg⟩
        · rw [hgo] at hrs; exact absurd hrs (by simp)
        · rw [hgo] at hrs
          cases eg
          · simp only [Option.some.injEq, Except.ok.injEq] at hrs
            have := reduce_statements_go_ok_complete rf mods hrf f.statements flv vs
              [] lg flvg vsg (by simp [isCompleteBody]) hgo
            simpa [hrs] using this
          · exact absurd hrs (by simp)

/-- Any Output of the shallow transform keeps the input function's
arguments and signature (only statements are rewritten). -/
theorem transform_fn_frame (f : TypedFunction) (gv : List Nat) :
    (transform f gv).fn.arguments = f.arguments ∧
    (transform f gv).fn.signature = f.signature := by
  unfold transform
  dsimp only
  split <;> exact ⟨rfl, rfl⟩

/-- A Complete result of the shallow transform has no call and no loop. -/
theorem transform_complete_body (mods : TypedModules) (f fc : TypedFunction)
    (gv : List Nat) (h : transform f gv = Output.complete fc) :
    isCompleteBody mods fc.statements = true := by
  unfold transform at h
  dsimp only at h
  split at h
  · exact absurd h (by simp)
  · case _ hany =>
    simp only [Output.complete.injEq] at h
    subst h
    refine List.all_eq_true.mpr fun x hx => ?hx2
    have hna := List.any_eq_false.mp (by simpa using hany) x hx
    cases x <;> simp_all [isActionable, isCompleteStmt]

/-- The driver loop keeps arguments and signature. -/
theorem driverLoop_frame (rf : List Nat → TypedFunction → Option TypedFunction)
    (mods : TypedModules) :
    ∀ (n : Nat) (f : TypedFunction) (flv : List Versions) (vs : Versions)
      (g : TypedFunction),
      driverLoop rf n f flv vs mods = some g →
      g.arguments = f.arguments ∧ g.signature = f.signature
  | 0, f, flv, vs, g => fun h => absurd h (by simp [driverLoop])
  | n + 1, f, flv, vs, g => by
    intro h
    simp only [driverLoop] at h
    rcases hrs : reduce_statements rf f.statements flv vs mods with _ | r
    · rw [hrs] at h; exact absurd h (by simp)
    · rw [hrs] at h
      rcases r with ⟨stmts, flv2, vs2⟩ | stmts
      · have ih := driverLoop_frame rf mods n (propagate { f with statements := stmts })
          flv2 vs2 g h
        simpa [propagate] using ih
      · simp only [Option.some.injEq] at h
        subst h
        exact ⟨rfl, rfl⟩

/-- fold_function keeps arguments and signature. -/
theorem fold_function_frame :
    ∀ (n : Nat) (mods : TypedModules) (gv : List Nat) (f g : TypedFunction),
      fold_function n mods gv f = some g →
      g.arguments = f.arguments ∧ g.signature = f.signature
  | 0, mods, gv, f, g => fun h => absurd h (by simp [fold_function])
  | n + 1, mods, gv, f, g => by
    intro h
    simp only [fold_function] at h
    rcases htr : transform f gv with fc | ⟨fi, flv, vs⟩
    · rw [htr] at h
      simp only [Option.some.injEq] at h
      subst h
      have := transform_fn_frame f gv
      rw [htr] at this
      exact this
    · rw [htr] at h
      have hd := driverLoop_frame (fold_function n mods) mods n fi flv vs g h
      have ht := transform_fn_frame f gv
      rw [htr] at ht
      exact ⟨hd.1.trans ht.1, hd.2.trans ht.2⟩

/-- A successful fold_function yields a Complete body. -/
theorem fold_function_complete :
    ∀ (n : Nat) (mods : TypedModules) (gv : List Nat) (f g : TypedFunction),
      fold_function n mods gv f = some g →
      isCompleteBody mods g.statements = true
  | 0, mods, gv, f, g => fun h => absurd h (by simp [fold_function])
  | n + 1, mods, gv, f, g => by
    intro h
    simp only [fold_function] at h
    rcases htr : transform f gv with fc | ⟨fi, flv, vs⟩
    · rw [htr] at h
      simp only [Option.some.injEq] at h
      subst h
      exact transform_complete_body mods f _ gv htr
    · rw [htr] at h
      exact driverLoop_complete (fold_function n mods) mods
        (fun gv2 f2 g2 => fold_function_complete n mods gv2 f2 g2) n fi flv vs g h

/-- On progC2 one driver iteration rewrites nothing: foo's generic K is
matched against the never-constant length n, inline_call hands the call
back, propagate is the identity, so every loop state equals the previous
one and no fuel suffices. -/
theorem driverLoop_progC2_none :
    ∀ (n : Nat) (rf : List Nat → TypedFunction → Option TypedFunction),
      driverLoop rf n mainC2 [] vsC2 modulesC2 = none
  | 0, rf => rfl
  | n + 1, rf => by
    have h : driverLoop rf (n + 1) mainC2 [] vsC2 modulesC2 =
        driverLoop rf n mainC2 [] vsC2 modulesC2 := rfl
    rw [h]
    exact driverLoop_progC2_none n rf

/-- fold_function diverges on mainC2 at every fuel. -/
theorem fold_function_progC2_none :
    ∀ (n : Nat), fold_function n modulesC2 [] mainC2 = none
  | 0 => rfl
  | n + 1 => by
    have h : fold_function (n + 1) modulesC2 [] mainC2 =
        driverLoop (fold_function n modulesC2) n mainC2 [] vsC2 modulesC2 := rfl
    rw [h]
    exact driverLoop_progC2_none n (fold_function n modulesC2)

/-- C2: the claim states that when no iteration can make progress the
driver detects it and raises a fatal error, so that fold_function always
terminates by progress or by error.  The source has no such detection: on
progC2 (a call whose generic length never becomes constant) every driver
iteration hands back the same statements, propagate is the identity, and
the Rust loop runs forever — modelled here by reduce_program and the
driver loop returning none at every fuel, for every callee reducer. -/
theorem C2_no_progress_diverges :
    (∀ fuel : Nat, reduce_program fuel progC2 = none) ∧
    (∀ (n : Nat) (rf : List Nat → TypedFunction → Option TypedFunction),
      driverLoop rf n mainC2 [] vsC2 modulesC2 = none) := by
  constructor
  · intro fuel
    have h : reduce_program fuel progC2 =
        (match fold_function fuel modulesC2 [] mainC2 with
         | none => none
         | some f =>
           some (Except.ok
             ⟨[("main", ⟨[(mainKeyC2, TypedFunctionSymbol.here f)]⟩)], "main"⟩)) := rfl
    rw [h, fold_function_progC2_none fuel]
  · exact fun n rf => driverLoop_progC2_none n rf

/-- C3: the claim states that a For statement with constant bounds is
unrolled and one with non-constant bounds is emitted unchanged.  The
source instead panics on every For statement (unimplemented, mod.rs line
186), whatever the bounds. -/
theorem C3_for_loop_unimplemented
    (rf : List Nat → TypedFunction → Option TypedFunction) (v : Variable)
    (lo hi : UExpression) (body : List TypedStatement) (flv : List Versions)
    (vs : Versions) (mods : TypedModules) :
    (reduce_statement rf (TypedStatement.forLoop v lo hi body) flv vs mods).1 = none :=
  rfl

/-- C4: the claim states that propagate folds every constant-operand
expression, in particular the length n - 1 with n previously 2 down to 1.
The source propagate (mod.rs lines 191-193) is the identity: on the body
of the with_generics_and_propagation scenario it returns the function
unchanged, with the symbolic subtraction still in place. -/
theorem C4_propagate_identity :
    propagate mainC4 = mainC4 ∧
    mainC4.statements[2]? =
      some (TypedStatement.definition
        ⟨⟨"b", 0⟩, .array .fieldElement (.sub (.ident ⟨"n", 1⟩) (.value 1))⟩
        (.fieldValue 42)) :=
  ⟨rfl, rfl⟩

/-- C6: the claim states that inlining draws fresh destination versions
from the caller's active VersionMap and advances it.  In the source,
reduce_statement binds both version parameters to underscores and passes
neither to inline_call, so the maps come back exactly as they went in, for
every statement - including every inlined call. -/
theorem C6_version_maps_untouched
    (rf : List Nat → TypedFunction → Option TypedFunction) (s : TypedStatement)
    (flv : List Versions) (vs : Versions) (mods : TypedModules) :
    (reduce_statement rf s flv vs mods).2 = (flv, vs) :=
  reduce_statement_state rf s flv vs mods

/-- C1: whenever reduce_program succeeds, the result has exactly one
module (the entry module), holding exactly one function symbol, a Here
function under the input main's key, whose body is in Complete form (no
non-primitive calls, no loops). -/
theorem C1_single_complete_main (fuel : Nat) (p prog : TypedProgram)
    (h : reduce_program fuel p = some (Except.ok prog)) :
    ∃ mm mainKey sym f,
      p.modules.lookup p.main = some mm ∧
      mm.functions.find? (fun kv => kv.1.id == "main") = some (mainKey, sym) ∧
      prog.main = p.main ∧
      prog.modules = [(p.main, ⟨[(mainKey, TypedFunctionSymbol.here f)]⟩)] ∧
      isCompleteBody p.modules f.statements = true := by
  unfold reduce_program at h
  split at h
  · exact absurd h (by simp)
  · rename_i mm hm
    split at h
    · exact absurd h (by simp)
    · rename_i mainKey mainF hfind
      split at h
      · split at h
        · exact absurd h (by simp)
        · rename_i g hg
          simp only [Option.some.injEq, Except.ok.injEq] at h
          subst h
          exact ⟨mm, mainKey, TypedFunctionSymbol.here mainF, g, hm, hfind, rfl, rfl,
            fold_function_complete fuel p.modules [] mainF g hg⟩
      · exact absurd h (by simp)
    · exact absurd h (by simp)

/-- Witness for C1: the program of the mod.rs no_generics test reduces,
and the result is the expected single-module single-Here-main program in
Complete form. -/
theorem C1_single_complete_main_witness :
    reduce_program 2 progT1 = some (Except.ok progT1out) ∧
    ∃ mm mainKey sym f,
      progT1.modules.lookup progT1.main = some mm ∧
      mm.functions.find? (fun kv => kv.1.id == "main") = some (mainKey, sym) ∧
      progT1out.main = progT1.main ∧
      progT1out.modules = [(progT1.main, ⟨[(mainKey, TypedFunctionSymbol.here f)]⟩)] ∧
      isCompleteBody progT1.modules f.statements = true :=
  ⟨rfl, C1_single_complete_main 2 progT1 progT1out rfl⟩

/-- C5 corrected: the claim says every erroneous input surfaces as the
single error kind Generic with an optional message and location.  In the
source the Error type carries no payload and the reducer error field is
never written, so a returned value is always Ok; erroneous inputs panic or
diverge instead. -/
theorem C5_error_never_returned :
    (∀ (fuel : Nat) (p : TypedProgram) (r : Except Error TypedProgram),
      reduce_program fuel p = some r → ∃ q, r = Except.ok q) ∧
    (∀ e : Error, e = Error.Generic) := by
  constructor
  · intro fuel p r h
    unfold reduce_program at h
    split at h
    · exact absurd h (by simp)
    · split at h
      · exact absurd h (by simp)
      · split at h
        · split at h
          · exact absurd h (by simp)
          · simp only [Option.some.injEq] at h
            exact ⟨_, h.symm⟩
        · exact absurd h (by simp)
      · exact absurd h (by simp)
  · intro e
    cases e
    rfl

/-- Witness for C5: a well-formed program terminates with an Ok value. -/
theorem C5_error_never_returned_witness :
    reduce_program 1 progC5 = some (Except.ok progC5) ∧
    ∃ q, (Except.ok progC5 : Except Error TypedProgram) = Except.ok q :=
  ⟨rfl, C5_error_never_returned.1 1 progC5 (Except.ok progC5) rfl⟩

/-- Counterexample to C5 as stated: on the erroneous input whose entry
module is absent, reduce_program panics (none) instead of returning the
Generic error value. -/
theorem C5_claim_counterexample :
    reduce_program 3 (TypedProgram.mk [] "main") = none ∧
    reduce_program 3 (TypedProgram.mk [] "main") ≠ some (Except.error Error.Generic) :=
  ⟨rfl, fun h => nomatch h⟩

/-- C7 corrected: an already-Complete main passes through; the output is
literally the input program when main is moreover a fixed point of the
shallow SSA pass and the program is the single entry module holding only
main. -/
theorem C7_pass_through (fuel : Nat) (p : TypedProgram)
    (mainKey : DeclarationFunctionKey) (f : TypedFunction)
    (h1 : p.modules = [(p.main, ⟨[(mainKey, TypedFunctionSymbol.here f)]⟩)])
    (h2 : mainKey.id = "main")
    (h3 : f.generics = [])
    (h4 : transform f [] = Output.complete f) :
    reduce_program (fuel + 1) p = some (Except.ok p) := by
  have hl : p.modules.lookup p.main =
      some (⟨[(mainKey, TypedFunctionSymbol.here f)]⟩ : TypedModule) := by
    rw [h1]
    simp [List.lookup]
  have hf : (⟨[(mainKey, TypedFunctionSymbol.here f)]⟩ : TypedModule).functions.find?
      (fun kv => kv.1.id == "main") = some (mainKey, TypedFunctionSymbol.here f) := by
    simp [List.find?, h2]
  have hff : fold_function (fuel + 1) p.modules [] f = some f := by
    have he : fold_function (fuel + 1) p.modules [] f =
        (match transform f [] with
         | Output.complete fc => some fc
         | Output.incomplete fi flv vs =>
           driverLoop (fold_function fuel p.modules) fuel fi flv vs p.modules) := rfl
    rw [he, h4]
  unfold reduce_program
  simp only [hl, hf, h3, List.length_nil, if_pos, hff]
  rw [← h1]

/-- Witness for C7: a single-module program whose Complete main is an SSA
fixed point comes back unchanged. -/
theorem C7_pass_through_witness :
    reduce_program 1 progC7 = some (Except.ok progC7) :=
  C7_pass_through 0 progC7 mainKeyC7 mainC7 rfl rfl rfl rfl

/-- Counterexample to C7 as stated: progC7cx is already Complete (its main
has no call and no loop) yet reduce_program returns a different program,
because shallow SSA renames the second write to n. -/
theorem C7_claim_counterexample :
    reduce_program 1 progC7cx = some (Except.ok progC7out) ∧ progC7out ≠ progC7cx :=
  ⟨rfl, fun h => absurd (congrArg secondWriteVersion h) (by decide)⟩

/-- C8: a driver iteration emits exactly the in-order concatenation of the
per-statement outputs, whether the iteration finishes the body (Ok) or
asks for another round (Err). -/
theorem C8_emission_order (rf : List Nat → TypedFunction → Option TypedFunction)
    (stmts : List TypedStatement) (flv : List Versions) (vs : Versions)
    (mods : TypedModules)
    (r : Except (List TypedStatement × List Versions × Versions) (List TypedStatement))
    (h : reduce_statements rf stmts flv vs mods = some r) :
    payloadOf r = stmts.flatMap (stmtOut rf mods flv vs) := by
  unfold reduce_statements at h
  rcases hgo : reduce_statements_go rf mods stmts flv vs [] false with _ | ⟨l, e, flv2, vs2⟩
  · rw [hgo] at h
    exact absurd h (by simp)
  · rw [hgo] at h
    have happ := reduce_statements_go_append rf mods stmts flv vs [] l false e flv2 vs2 hgo
    cases e
    · have h2 : some (Except.ok l) = some r := h
      simp only [Option.some.injEq] at h2
      subst h2
      simpa [payloadOf] using happ
    · have h2 : some (Except.error (l, flv2, vs2)) = some r := h
      simp only [Option.some.injEq] at h2
      subst h2
      simpa [payloadOf] using happ

/-- Witness for C8: the driver iteration of the no_generics test emits the
concatenation, in order, of each statement's reduction output. -/
theorem C8_emission_order_witness :
    payloadOf (Except.ok mainT1out.statements) =
      mainT1ssa.flatMap (stmtOut (fold_function 1 modulesT1) modulesT1 [] []) :=
  C8_emission_order (fold_function 1 modulesT1) mainT1ssa [] [] modulesT1
    (Except.ok mainT1out.statements) rfl

/-- C9: on success the output main keeps the argument list and declared
signature of the input main; only the statement list is rewritten. -/
theorem C9_frame_preserved (fuel : Nat) (p prog : TypedProgram) (mm : TypedModule)
    (mainKey : DeclarationFunctionKey) (mainF : TypedFunction)
    (h1 : p.modules.lookup p.main = some mm)
    (h2 : mm.functions.find? (fun kv => kv.1.id == "main") =
      some (mainKey, TypedFunctionSymbol.here mainF))
    (h3 : reduce_program fuel p = some (Except.ok prog)) :
    ∃ f, prog.modules = [(p.main, ⟨[(mainKey, TypedFunctionSymbol.here f)]⟩)] ∧
      f.arguments = mainF.arguments ∧ f.signature = mainF.signature := by
  unfold reduce_program at h3
  simp only [h1, h2] at h3
  split at h3
  · split at h3
    · exact absurd h3 (by simp)
    · rename_i g hg
      simp only [Option.some.injEq, Except.ok.injEq] at h3
      subst h3
      have hfr := fold_function_frame fuel p.modules [] mainF g hg
      exact ⟨g, rfl, hfr.1, hfr.2⟩
  · exact absurd h3 (by simp)

/-- Witness for C9: in the no_generics run the reduced main keeps main's
arguments and signature. -/
theorem C9_frame_preserved_witness :
    ∃ f, progT1out.modules =
        [(progT1.main, ⟨[(mainKeyT1, TypedFunctionSymbol.here f)]⟩)] ∧
      f.arguments = mainT1.arguments ∧ f.signature = mainT1.signature :=
  C9_frame_preserved 2 progT1 progT1out
    ⟨[(fooKeyT1, .here fooT1), (mainKeyT1, .here mainT1)]⟩ mainKeyT1 mainT1 rfl rfl rfl

/-- C10: reduce_program panics (rather than returning the Generic error)
whenever the entry module is absent, no function key has id main, the main
symbol is not a Here definition, or main declares generic parameters. -/
theorem C10_entry_panics (fuel : Nat) (p : TypedProgram) (h : badEntry p = true) :
    reduce_program fuel p = none := by
  unfold badEntry at h
  unfold reduce_program
  rcases hm : p.modules.lookup p.main with _ | mm
  · simp only [hm]
  · simp only [hm] at h
    rcases hf : mm.functions.find? (fun kv => kv.1.id == "main") with _ | kv
    · simp [hm, hf]
    · rcases kv with ⟨k, sym⟩
      cases sym with
      | here f =>
        simp only [hf] at h
        have hg : ¬ (f.generics.length = 0) := by simpa using h
        simp [hm, hf, hg]
      | there k2 m2 => simp [hm, hf]
      | primitive k2 => simp [hm, hf]

/-- Witness for C10: a main that declares a generic parameter trips the
assertion and reduce_program panics. -/
theorem C10_entry_panics_witness :
    badEntry progC10 = true ∧ reduce_program 2 progC10 = none :=
  ⟨rfl, C10_entry_panics 2 progC10 rfl⟩

end Reducer
